import Mathlib

/-!
Shallow embedding of `src/fmu_config/cFile/Joe_ep_fmu/Parser_Files/xml_parser.c`,
the event-driven XML parser that builds and validates the AST of an FMU model
description.  The enumerations mirror the C `Elm`, `Att`, `Enu` and
`ValueStatus` types (declared in `xml_parser.h`; their order and spelling are
fixed by the `elmNames`, `attNames` and `enuNames` tables of the C file).
Machine strings are Lean `String`s, C `NULL` pointers are `Option.none`,
doubles are modelled as exact rationals, and the global parser stack is an
explicit `List` (head = top of stack).
-/

namespace FmuXml

/-- Element kinds, in the order of the C table `elmNames` (`xml_parser.c:38`),
together with the error value `elm_BAD_DEFINED` (`-1` in C). -/
inductive Elm where
  | elm_fmiModelDescription
  | elm_UnitDefinitions
  | elm_BaseUnit
  | elm_DisplayUnitDefinition
  | elm_TypeDefinitions
  | elm_Type
  | elm_RealType
  | elm_IntegerType
  | elm_BooleanType
  | elm_StringType
  | elm_EnumerationType
  | elm_Item
  | elm_DefaultExperiment
  | elm_VendorAnnotations
  | elm_Tool
  | elm_Annotation
  | elm_ModelVariables
  | elm_ScalarVariable
  | elm_DirectDependency
  | elm_Name
  | elm_Real
  | elm_Integer
  | elm_Boolean
  | elm_String
  | elm_Enumeration
  | elm_Implementation
  | elm_CoSimulation_StandAlone
  | elm_CoSimulation_Tool
  | elm_Model
  | elm_File
  | elm_Capabilities
  | elm_BAD_DEFINED
deriving DecidableEq, Fintype

/-- Attribute kinds, in the order of the C table `attNames`
(`xml_parser.c:46`), together with `att_BAD_DEFINED`. -/
inductive Att where
  | att_fmiVersion
  | att_displayUnit
  | att_gain
  | att_offset
  | att_unit
  | att_name
  | att_description
  | att_quantity
  | att_relativeQuantity
  | att_min
  | att_max
  | att_nominal
  | att_declaredType
  | att_start
  | att_fixed
  | att_startTime
  | att_stopTime
  | att_tolerance
  | att_value
  | att_valueReference
  | att_variability
  | att_causality
  | att_alias
  | att_modelName
  | att_modelIdentifier
  | att_guid
  | att_author
  | att_version
  | att_generationTool
  | att_generationDateAndTime
  | att_variableNamingConvention
  | att_numberOfContinuousStates
  | att_numberOfEventIndicators
  | att_input
  | att_canHandleVariableCommunicationStepSize
  | att_canHandleEvents
  | att_canRejectSteps
  | att_canInterpolateInputs
  | att_maxOutputDerivativeOrder
  | att_canRunAsynchronuously
  | att_canSignalEvents
  | att_canBeInstantiatedOnlyOncePerProcess
  | att_canNotUseMemoryManagementFunctions
  | att_file
  | att_entryPoint
  | att_manualStart
  | att_type
  | att_BAD_DEFINED
deriving DecidableEq, Fintype

/-- Enum-value kinds, in the order of the C table `enuNames`
(`xml_parser.c:57`), together with `enu_BAD_DEFINED`. -/
inductive Enu where
  | enu_flat
  | enu_structured
  | enu_constant
  | enu_parameter
  | enu_discrete
  | enu_continuous
  | enu_input
  | enu_output
  | enu_internal
  | enu_none
  | enu_noAlias
  | enu_alias
  | enu_negatedAlias
  | enu_BAD_DEFINED
deriving DecidableEq, Fintype

/-- The `ValueStatus` classification of a typed attribute read
(`xml_parser.h`). -/
inductive ValueStatus where
  | valueMissing
  | valueDefined
  | valueIllegal
deriving DecidableEq

/-- The `AstNodeType` discriminator of node shapes (`xml_parser.h`,
used by `getAstNodeType`). -/
inductive AstNodeType where
  | astElement
  | astListElement
  | astType
  | astScalarVariable
  | astCoSimulation
  | astModelDescription
deriving DecidableEq

/-- The `elmNames` table (`xml_parser.c:38`): element kind and its
document spelling, in table order. -/
def elmEntries : List (Elm × String) :=
  [ (Elm.elm_fmiModelDescription, "fmiModelDescription")
  , (Elm.elm_UnitDefinitions, "UnitDefinitions")
  , (Elm.elm_BaseUnit, "BaseUnit")
  , (Elm.elm_DisplayUnitDefinition, "DisplayUnitDefinition")
  , (Elm.elm_TypeDefinitions, "TypeDefinitions")
  , (Elm.elm_Type, "Type")
  , (Elm.elm_RealType, "RealType")
  , (Elm.elm_IntegerType, "IntegerType")
  , (Elm.elm_BooleanType, "BooleanType")
  , (Elm.elm_StringType, "StringType")
  , (Elm.elm_EnumerationType, "EnumerationType")
  , (Elm.elm_Item, "Item")
  , (Elm.elm_DefaultExperiment, "DefaultExperiment")
  , (Elm.elm_VendorAnnotations, "VendorAnnotations")
  , (Elm.elm_Tool, "Tool")
  , ( Elm.elm_Annotation, "Annotation")
  , (Elm.elm_ModelVariables, "ModelVariables")
  , (Elm.elm_ScalarVariable, "ScalarVariable")
  , (Elm.elm_DirectDependency, "DirectDependency")
  , (Elm.elm_Name, "Name")
  , (Elm.elm_Real, "Real")
  , (Elm.elm_Integer, "Integer")
  , (Elm.elm_Boolean, "Boolean")
  , (Elm.elm_String, "String")
  , (Elm.elm_Enumeration, "Enumeration")
  , (Elm.elm_Implementation, "Implementation")
  , (Elm.elm_CoSimulation_StandAlone, "CoSimulation_StandAlone")
  , (Elm.elm_CoSimulation_Tool, "CoSimulation_Tool")
  , (Elm.elm_Model, "Model")
  , (Elm.elm_File, "File")
  , (Elm.elm_Capabilities, "Capabilities") ]

/-- The `attNames` table (`xml_parser.c:46`). -/
def attEntries : List (Att × String) :=
  [ (Att.att_fmiVersion, "fmiVersion")
  , (Att.att_displayUnit, "displayUnit")
  , (Att.att_gain, "gain")
  , (Att.att_offset, "offset")
  , (Att.att_unit, "unit")
  , (Att.att_name, "name")
  , (Att.att_description, "description")
  , (Att.att_quantity, "quantity")
  , (Att.att_relativeQuantity, "relativeQuantity")
  , (Att.att_min, "min")
  , (Att.att_max, "max")
  , (Att.att_nominal, "nominal")
  , (Att.att_declaredType, "declaredType")
  , (Att.att_start, "start")
  , (Att.att_fixed, "fixed")
  , (Att.att_startTime, "startTime")
  , (Att.att_stopTime, "stopTime")
  , (Att.att_tolerance, "tolerance")
  , (Att.att_value, "value")
  , (Att.att_valueReference, "valueReference")
  , (Att.att_variability, "variability")
  , (Att.att_causality, "causality")
  , (Att.att_alias, "alias")
  , (Att.att_modelName, "modelName")
  , (Att.att_modelIdentifier, "modelIdentifier")
  , (Att.att_guid, "guid")
  , (Att.att_author, "author")
  , (Att.att_version, "version")
  , (Att.att_generationTool, "generationTool")
  , (Att.att_generationDateAndTime, "generationDateAndTime")
  , (Att.att_variableNamingConvention, "variableNamingConvention")
  , (Att.att_numberOfContinuousStates, "numberOfContinuousStates")
  , (Att.att_numberOfEventIndicators, "numberOfEventIndicators")
  , (Att.att_input, "input")
  , (Att.att_canHandleVariableCommunicationStepSize, "canHandleVariableCommunicationStepSize")
  , (Att.att_canHandleEvents, "canHandleEvents")
  , (Att.att_canRejectSteps, "canRejectSteps")
  , (Att.att_canInterpolateInputs, "canInterpolateInputs")
  , (Att.att_maxOutputDerivativeOrder, "maxOutputDerivativeOrder")
  , (Att.att_canRunAsynchronuously, "canRunAsynchronuously")
  , (Att.att_canSignalEvents, "canSignalEvents")
  , (Att.att_canBeInstantiatedOnlyOncePerProcess, "canBeInstantiatedOnlyOncePerProcess")
  , (Att.att_canNotUseMemoryManagementFunctions, "canNotUseMemoryManagementFunctions")
  , (Att.att_file, "file")
  , (Att.att_entryPoint, "entryPoint")
  , (Att.att_manualStart, "manualStart")
  , (Att.att_type, "type") ]

/-- The `enuNames` table (`xml_parser.c:57`). -/
def enuEntries : List (Enu × String) :=
  [ (Enu.enu_flat, "flat")
  , (Enu.enu_structured, "structured")
  , (Enu.enu_constant, "constant")
  , (Enu.enu_parameter, "parameter")
  , (Enu.enu_discrete, "discrete")
  , (Enu.enu_continuous, "continuous")
  , (Enu.enu_input, "input")
  , (Enu.enu_output, "output")
  , (Enu.enu_internal, "internal")
  , (Enu.enu_none, "none")
  , (Enu.enu_noAlias, "noAlias")
  , (Enu.enu_alias, "alias")
  , (Enu.enu_negatedAlias, "negatedAlias") ]

/-- `checkName`/`checkElement` (`xml_parser.c:329,340`): linear scan of the
element-name table; unknown names give `elm_BAD_DEFINED` (in C this also logs
and stops the parser, which the step functions model by failing). -/
def checkElement (s : String) : Elm :=
  ((elmEntries.find? (fun p => p.2 == s)).map (fun p => p.1)).getD Elm.elm_BAD_DEFINED

/-- `checkAttribute` (`xml_parser.c:345`). -/
def checkAttribute (s : String) : Att :=
  ((attEntries.find? (fun p => p.2 == s)).map (fun p => p.1)).getD Att.att_BAD_DEFINED

/-- `checkEnumValue` (`xml_parser.c:350`). -/
def checkEnumValue (s : String) : Enu :=
  ((enuEntries.find? (fun p => p.2 == s)).map (fun p => p.1)).getD Enu.enu_BAD_DEFINED

/-- The shape-specific child fields of the C node structs (`xml_parser.h`):
`ListElement.list`, `Type.typeSpec`, `ScalarVariable.typeSpec/directDependencies`,
`CoSimulation.capabilities/model` and the six `ModelDescription` child slots.
`calloc` zero-initialises every field in C, so a fresh node has all fields
`none`; `none` models a C `NULL` pointer throughout. -/
structure Fields (α : Type) where
  list : Option (List α) := none
  typeSpec : Option α := none
  directDependencies : Option (List α) := none
  capabilities : Option α := none
  model : Option α := none
  modelVariables : Option (List α) := none
  vendorAnnotations : Option (List α) := none
  defaultExperiment : Option α := none
  typeDefinitions : Option (List α) := none
  unitDefinitions : Option (List α) := none
  cosimulation : Option α := none

/-- An AST node (`Element` and its extensions in `xml_parser.h`): element
kind, the attribute store (ordered identity/value pairs; a `none` value models
the `NULL` value pointer that the `Name` assembly can store), and the
shape-specific child fields.  The C code distinguishes the struct variants by
`type` and casts; here every node carries all (mostly unused) fields. -/
inductive Element where
  | mk (type : Elm) (attributes : List (Att × Option String)) (fields : Fields Element)

def Element.type : Element → Elm
  | Element.mk t _ _ => t

def Element.attributes : Element → List (Att × Option String)
  | Element.mk _ a _ => a

def Element.fields : Element → Fields Element
  | Element.mk _ _ f => f

def Element.list (e : Element) : Option (List Element) := e.fields.list

def Element.typeSpec (e : Element) : Option Element := e.fields.typeSpec

def Element.directDependencies (e : Element) : Option (List Element) :=
  e.fields.directDependencies

def Element.capabilities (e : Element) : Option Element := e.fields.capabilities

def Element.model (e : Element) : Option Element := e.fields.model

def Element.modelVariables (e : Element) : Option (List Element) :=
  e.fields.modelVariables

def Element.vendorAnnotations (e : Element) : Option (List Element) :=
  e.fields.vendorAnnotations

def Element.defaultExperiment (e : Element) : Option Element :=
  e.fields.defaultExperiment

def Element.typeDefinitions (e : Element) : Option (List Element) :=
  e.fields.typeDefinitions

def Element.unitDefinitions (e : Element) : Option (List Element) :=
  e.fields.unitDefinitions

def Element.cosimulation (e : Element) : Option Element := e.fields.cosimulation

/-- `((ListElement*)elm)->list = array` (`xml_parser.c:507`). -/
def Element.setList (e : Element) (l : List Element) : Element :=
  match e with
  | Element.mk t a f => Element.mk t a { f with list := some l }

/-- `tp->typeSpec = ts` (`xml_parser.c:632`). -/
def Element.setTypeSpec (e : Element) (ts : Element) : Element :=
  match e with
  | Element.mk t a f => Element.mk t a { f with typeSpec := some ts }

/-- `sv->directDependencies = list; sv->typeSpec = child`
(`xml_parser.c:660`). -/
def Element.setVar (e : Element) (dd : Option (List Element)) (ts : Element) :
    Element :=
  match e with
  | Element.mk t a f =>
      Element.mk t a { f with directDependencies := dd, typeSpec := some ts }

/-- `cs->capabilities = ca` (`xml_parser.c:599`). -/
def Element.setCapabilities (e : Element) (ca : Element) : Element :=
  match e with
  | Element.mk t a f => Element.mk t a { f with capabilities := some ca }

/-- `cs->model = mo` (`xml_parser.c:610`). -/
def Element.setModel (e : Element) (mo : Element) : Element :=
  match e with
  | Element.mk t a f => Element.mk t a { f with model := some mo }

/-- The six root-field assignments of the `fmiModelDescription` close rule
(`xml_parser.c:573`). -/
def Element.setRoot (e : Element) (mv va : Option (List Element))
    (de : Option Element) (td ud : Option (List Element))
    (cs : Option Element) : Element :=
  match e with
  | Element.mk t a f =>
      Element.mk t a
        { f with modelVariables := mv, vendorAnnotations := va,
                 defaultExperiment := de, typeDefinitions := td,
                 unitDefinitions := ud, cosimulation := cs }

/-- The `Name` close rule replaces the attribute store by the single
synthetic pair `(att_input, data)`, where `data` may be `NULL`
(`xml_parser.c:679`). -/
def Element.setNameAttrs (e : Element) (d : Option String) : Element :=
  match e with
  | Element.mk t _ f => Element.mk t [(Att.att_input, d)] f

/-- `getString` (`xml_parser.c:72`): first attribute pair whose (interned)
name matches, returning its value; a stored `NULL` value is returned as-is,
indistinguishable from absence. -/
def getString (e : Element) (a : Att) : Option String :=
  lookupAtt e.attributes a
where
  lookupAtt : List (Att × Option String) → Att → Option String
    | [], _ => none
    | (k, v) :: rest, a => if k = a then v else lookupAtt rest a

/-- Value of a digit string, most significant first. -/
def digitsVal (ds : List Char) : Nat :=
  ds.foldl (fun n c => 10 * n + (c.toNat - 48)) 0

/-- Models the C library `sscanf(value, "%u", ...)` conversion used by
`getUInt` (external to this repository): optional leading whitespace and
sign, at least one decimal digit, trailing characters ignored; the value is
reduced modulo 2^32 (a leading minus wraps as in C unsigned conversion). -/
def scanUInt (s : String) : Option Nat :=
  let cs := s.data.dropWhile (fun c => c.isWhitespace)
  let negp : Bool × List Char :=
    match cs with
    | '-' :: r => (true, r)
    | '+' :: r => (false, r)
    | r => (false, r)
  let ds := negp.2.takeWhile (fun c => c.isDigit)
  if ds.isEmpty then none
  else
    let n := digitsVal ds % 2 ^ 32
    some (if negp.1 then (2 ^ 32 - n) % 2 ^ 32 else n)

/-- Models the C library `sscanf(value, "%d", ...)` conversion used by
`getInt`: optional whitespace and sign, at least one digit; the exact
mathematical value is kept (no claim exercises `int` overflow). -/
def scanInt (s : String) : Option Int :=
  let cs := s.data.dropWhile (fun c => c.isWhitespace)
  let negp : Bool × List Char :=
    match cs with
    | '-' :: r => (true, r)
    | '+' :: r => (false, r)
    | r => (false, r)
  let ds := negp.2.takeWhile (fun c => c.isDigit)
  if ds.isEmpty then none
  else some (if negp.1 then -(digitsVal ds : Int) else (digitsVal ds : Int))

/-- Exponent part of a `%lf` conversion applied to a mantissa. -/
def expApply (m : ℚ) (r : List Char) : ℚ :=
  let negp : Bool × List Char :=
    match r with
    | '-' :: t => (true, t)
    | '+' :: t => (false, t)
    | t => (false, t)
  let ed := negp.2.takeWhile (fun c => c.isDigit)
  if ed.isEmpty then m
  else if negp.1 then m / 10 ^ digitsVal ed else m * 10 ^ digitsVal ed

/-- Models the C library `sscanf(value, "%lf", ...)` conversion used by
`getDouble`: optional whitespace and sign, a decimal mantissa with at least
one digit, an optional exponent; the value is kept as an exact rational
(the claims never depend on binary rounding). -/
def scanDouble (s : String) : Option ℚ :=
  let cs := s.data.dropWhile (fun c => c.isWhitespace)
  let negp : Bool × List Char :=
    match cs with
    | '-' :: r => (true, r)
    | '+' :: r => (false, r)
    | r => (false, r)
  let ip := negp.2.takeWhile (fun c => c.isDigit)
  let cs2 := negp.2.dropWhile (fun c => c.isDigit)
  let frac : List Char × List Char :=
    match cs2 with
    | '.' :: r => (r.takeWhile (fun c => c.isDigit), r.dropWhile (fun c => c.isDigit))
    | r => ([], r)
  if ip.isEmpty ∧ frac.1.isEmpty then none
  else
    let sign : ℚ := if negp.1 then -1 else 1
    let mant : ℚ :=
      sign * ((digitsVal ip : ℚ) + (digitsVal frac.1 : ℚ) / 10 ^ frac.1.length)
    match frac.2 with
    | 'e' :: r => some (expApply mant r)
    | 'E' :: r => some (expApply mant r)
    | _ => some mant

/-- `getDouble` (`xml_parser.c:81`): `d` starts at `0` and is only written by
a successful `sscanf`, so an absent attribute gives `(0, Missing)` and an
unparseable one `(0, Illegal)`. -/
def getDouble (e : Element) (a : Att) : ℚ × ValueStatus :=
  match getString e a with
  | none => (0, ValueStatus.valueMissing)
  | some v =>
    match scanDouble v with
    | some d => (d, ValueStatus.valueDefined)
    | none => (0, ValueStatus.valueIllegal)

/-- `getInt` (`xml_parser.c:91`). -/
def getInt (e : Element) (a : Att) : Int × ValueStatus :=
  match getString e a with
  | none => (0, ValueStatus.valueMissing)
  | some v =>
    match scanInt v with
    | some n => (n, ValueStatus.valueDefined)
    | none => (0, ValueStatus.valueIllegal)

/-- `getUInt` (`xml_parser.c:99`): `u` is initialised to `(unsigned)-1 =
4294967295` and is only overwritten by a successful `sscanf`, so both the
missing and the illegal case return the all-ones value. -/
def getUInt (e : Element) (a : Att) : Nat × ValueStatus :=
  match getString e a with
  | none => (4294967295, ValueStatus.valueMissing)
  | some v =>
    match scanUInt v with
    | some u => (u, ValueStatus.valueDefined)
    | none => (4294967295, ValueStatus.valueIllegal)

/-- The per-attribute enum defaults of `getEnumValue`'s missing-value switch
(`xml_parser.c:130`). -/
def enumDefault (a : Att) : Enu :=
  match a with
  | Att.att_variableNamingConvention => Enu.enu_flat
  | Att.att_variability => Enu.enu_continuous
  | Att.att_causality => Enu.enu_internal
  | Att.att_alias => Enu.enu_noAlias
  | _ => Enu.enu_BAD_DEFINED

/-- `getEnumValue` (`xml_parser.c:124`); the C out-parameter `vs` becomes the
second component.  (On an unknown value `checkEnumValue` additionally logs
and stops the parser; the returned pair is unaffected.) -/
def getEnumValue (e : Element) (a : Att) : Enu × ValueStatus :=
  match getString e a with
  | none => (enumDefault a, ValueStatus.valueMissing)
  | some v =>
    let id := checkEnumValue v
    (id, if id = Enu.enu_BAD_DEFINED then ValueStatus.valueIllegal
         else ValueStatus.valueDefined)

/-- `getCausality` (`xml_parser.c:176`): the status is discarded. -/
def getCausality (sv : Element) : Enu :=
  (getEnumValue sv Att.att_causality).1

/-- `getVariability` (`xml_parser.c:183`). -/
def getVariability (sv : Element) : Enu :=
  (getEnumValue sv Att.att_variability).1

/-- `getAlias` (`xml_parser.c:190`). -/
def getAlias (sv : Element) : Enu :=
  (getEnumValue sv Att.att_alias).1

/-- `fmiUndefinedValueReference = 4294967295` (`fmiModelTypes.h`, quoted at
`xml_parser.c:196`). -/
def fmiUndefinedValueReference : Nat := 4294967295

/-- `getValueReference` (`xml_parser.c:198`); its asserts (node kind, value
defined) do not change the returned value. -/
def getValueReference (sv : Element) : Nat :=
  (getUInt sv Att.att_valueReference).1

/-- `getName` (`xml_parser.c:168`); the C version asserts the result is
non-`NULL`, here absence stays observable as `none`. -/
def getName (e : Element) : Option String :=
  getString e Att.att_name

/-- `sameBaseType` (`xml_parser.c:220`): Enumeration and Integer share one
base type, everything else only matches itself. -/
def sameBaseType (t1 t2 : Elm) : Bool :=
  decide (t1 = t2) ||
    (decide (t1 = Elm.elm_Enumeration) && decide (t2 = Elm.elm_Integer)) ||
    (decide (t2 = Elm.elm_Enumeration) && decide (t1 = Elm.elm_Integer))

/-- The loop condition of `getVariable` (`xml_parser.c:233`).  The C code
dereferences `sv->typeSpec` unconditionally; a `none` type-spec (impossible
on a fully assembled tree) is totalised to a non-match. -/
def svMatch (ty : Elm) (vr : Nat) (sv : Element) : Bool :=
  (match sv.typeSpec with
   | some ts => sameBaseType ty ts.type
   | none => false) && decide (getValueReference sv = vr)

/-- `getVariable` (`xml_parser.c:228`): `NULL` unless the variable list
exists and `vr` differs from the undefined sentinel; then first match wins. -/
def getVariable (md : Element) (vr : Nat) (ty : Elm) : Option Element :=
  match md.modelVariables with
  | some l =>
    if vr ≠ fmiUndefinedValueReference then l.find? (svMatch ty vr) else none
  | none => none

/-- `getNonAliasVariable` (`xml_parser.c:241`): additionally requires
`getAlias(sv) == enu_noAlias`. -/
def getNonAliasVariable (md : Element) (vr : Nat) (ty : Elm) : Option Element :=
  match md.modelVariables with
  | some l =>
    if vr ≠ fmiUndefinedValueReference then
      l.find? (fun sv => svMatch ty vr sv && decide (getAlias sv = Enu.enu_noAlias))
    else none
  | none => none

/-- `getVariableByName` (`xml_parser.c:207`). -/
def getVariableByName (md : Element) (nm : String) : Option Element :=
  match md.modelVariables with
  | some l => l.find? (fun sv => decide (getName sv = some nm))
  | none => none

/-- `getDeclaredType` (`xml_parser.c:252`): linear scan of the
type-definitions list by name; `NULL` when the reference or the list is
absent. -/
def getDeclaredType (md : Element) (declaredType : Option String) :
    Option Element :=
  match declaredType, md.typeDefinitions with
  | some dt, some l => l.find? (fun tp => decide (getName tp = some dt))
  | _, _ => none

/-- `getString2` (`xml_parser.c:263`): attribute on the node itself, else on
the `typeSpec` of the type named by the node's own `declaredType` attribute.
The C code dereferences `type->typeSpec`; a `none` type-spec is totalised to
absence. -/
def getString2 (md : Element) (tp : Element) (a : Att) : Option String :=
  match getString tp a with
  | some v => some v
  | none =>
    match getDeclaredType md (getString tp Att.att_declaredType) with
    | some ty =>
      match ty.typeSpec with
      | some ts => getString ts a
      | none => none
    | none => none

/-- `getDescription` (`xml_parser.c:273`): description on the variable node
itself, else — resolving the `declaredType` written on the variable's
`typeSpec` — the description attribute of the referenced `Type` node itself
(`getString(type, att_description)`, not the type's `typeSpec`).  The C code
dereferences `sv->typeSpec`; a `none` type-spec is totalised to absence. -/
def getDescription (md : Element) (sv : Element) : Option String :=
  match getString sv Att.att_description with
  | some v => some v
  | none =>
    match getDeclaredType md (sv.typeSpec.bind
        (fun ts => getString ts Att.att_declaredType)) with
    | some ty => getString ty Att.att_description
    | none => none

/-- `getVariableAttributeString` (`xml_parser.c:284`): looks the variable up
by value reference and base type, reads the attribute on its `typeSpec`,
else on the `typeSpec` of its declared type.  The C code dereferences
`sv->typeSpec` unconditionally; `none` is totalised to absence. -/
def getVariableAttributeString (md : Element) (vr : Nat) (ty : Elm) (a : Att) :
    Option String :=
  match getVariable md vr ty with
  | none => none
  | some sv =>
    match sv.typeSpec with
    | none => none
    | some ts =>
      match getString ts a with
      | some v => some v
      | none =>
        match getDeclaredType md (getString ts Att.att_declaredType) with
        | some tp =>
          match tp.typeSpec with
          | some ts2 => getString ts2 a
          | none => none
        | none => none

/-- `getVariableAttributeDouble` (`xml_parser.c:299`). -/
def getVariableAttributeDouble (md : Element) (vr : Nat) (ty : Elm) (a : Att) :
    ℚ × ValueStatus :=
  match getVariableAttributeString md vr ty a with
  | none => (0, ValueStatus.valueMissing)
  | some v =>
    match scanDouble v with
    | some d => (d, ValueStatus.valueDefined)
    | none => (0, ValueStatus.valueIllegal)

/-- `getNominal` (`xml_parser.c:310`): the parsed nominal value if its status
is `valueDefined`, the documented default `1.0` otherwise. -/
def getNominal (md : Element) (vr : Nat) : ℚ :=
  if (getVariableAttributeDouble md vr Elm.elm_Real Att.att_nominal).2 =
      ValueStatus.valueDefined
  then (getVariableAttributeDouble md vr Elm.elm_Real Att.att_nominal).1
  else 1

/-- The error predicate of `validate`'s loop body (`xml_parser.c:851`): the
variable's `typeSpec` carries a `declaredType` attribute and the lookup in
the root's type definitions fails.  (The C code dereferences `sv->typeSpec`;
`none` is totalised to no declared type.) -/
def unresolvedB (md : Element) (sv : Element) : Bool :=
  (sv.typeSpec.bind (fun ts => getString ts Att.att_declaredType)).isSome &&
    (getDeclaredType md
      (sv.typeSpec.bind (fun ts => getString ts Att.att_declaredType))).isNone

/-- The `error` counter accumulated by `validate` (`xml_parser.c:846`):
one per variable whose declared type does not resolve; zero when the
variable list is `NULL`. -/
def errorCount (md : Element) : Nat :=
  (md.modelVariables.getD []).countP (unresolvedB md)

/-- `validate` (`xml_parser.c:845`): returns `NULL` exactly when the error
count is non-zero, the tree itself otherwise. -/
def validate (md : Element) : Option Element :=
  if errorCount md ≠ 0 then none else some md

/-- `getAstNodeType` (`xml_parser.c:392`). -/
def getAstNodeType (e : Elm) : AstNodeType :=
  match e with
  | Elm.elm_fmiModelDescription => AstNodeType.astModelDescription
  | Elm.elm_Type => AstNodeType.astType
  | Elm.elm_ScalarVariable => AstNodeType.astScalarVariable
  | Elm.elm_CoSimulation_StandAlone => AstNodeType.astCoSimulation
  | Elm.elm_CoSimulation_Tool => AstNodeType.astCoSimulation
  | Elm.elm_BaseUnit => AstNodeType.astListElement
  | Elm.elm_EnumerationType => AstNodeType.astListElement
  | Elm.elm_Tool => AstNodeType.astListElement
  | Elm.elm_UnitDefinitions => AstNodeType.astListElement
  | Elm.elm_TypeDefinitions => AstNodeType.astListElement
  | Elm.elm_VendorAnnotations => AstNodeType.astListElement
  | Elm.elm_ModelVariables => AstNodeType.astListElement
  | Elm.elm_DirectDependency => AstNodeType.astListElement
  | Elm.elm_Model => AstNodeType.astListElement
  | _ => AstNodeType.astElement

/-- `addAttributes` (`xml_parser.c:422`): every raw attribute name is
resolved against the table (an unknown name aborts the whole construction),
values are copied; order is preserved. -/
def addAttributes (attrs : List (String × String)) :
    Option (List (Att × Option String)) :=
  attrs.mapM (fun p =>
    match checkAttribute p.1 with
    | Att.att_BAD_DEFINED => none
    | a => some (a, some p.2))

/-- The mutable parser state of `xml_parser.c`: the node stack (`stack`,
head = top), the pending text accumulator (`data`, `NULL` when idle) and the
`skipData` flag.  A step function returning `none` models a fatal error
(`XML_StopParser` or an aborting assertion): no further events are delivered
and the whole parse fails. -/
structure PState where
  stack : List Element
  data : Option String
  skipData : Bool

/-- `startElement` (`xml_parser.c:469`): resolve the element name (unknown
is fatal), set `skipData` for every element but `Name`, allocate a bare node
with its attribute store and push it. -/
def startElement (st : PState) (nm : String)
    (attrs : List (String × String)) : Option PState :=
  match checkElement nm with
  | Elm.elm_BAD_DEFINED => none
  | el =>
    match addAttributes attrs with
    | none => none
    | some atts =>
      some { st with stack := Element.mk el atts {} :: st.stack,
                     skipData := decide (el ≠ Elm.elm_Name) }

/-- `popList` (`xml_parser.c:493`): pop the maximal top run of nodes of kind
`c`, push the first differently kinded node back, and — when that node is a
list-variant node — attach the run, in original document order (the reverse
of pop order, as delivered by `stackLastPopedAsArray0`), as its `list`.
Popping from an empty stack is fatal. -/
def popList (c : Elm) (stack : List Element) : Option (List Element) :=
  match stack.dropWhile (fun x => decide (x.type = c)) with
  | [] => none
  | sentinel :: rest =>
    if getAstNodeType sentinel.type = AstNodeType.astListElement then
      some (sentinel.setList
        (stack.takeWhile (fun x => decide (x.type = c))).reverse :: rest)
    else some (sentinel :: rest)

/-- `checkPeek` at the end of `endElement` (`xml_parser.c:695`): the top of
the stack must exist and have the closing element's kind. -/
def finalPeek (el : Elm) (st : PState) : Option PState :=
  match st.stack with
  | [] => none
  | top :: _ => if top.type = el then some st else none

/-- One `case elm_X: popList(elm_c); break;` arm of `endElement`
(`xml_parser.c:664`) together with the trailing `checkPeek(el)`. -/
def closeList (p c : Elm) (st : PState) : Option PState :=
  match popList c st.stack with
  | none => none
  | some s => finalPeek p { st with stack := s }

/-- One conditional pop of the `fmiModelDescription` close rule
(`xml_parser.c:530`): if the current child satisfies `p`, capture it and pop
the next node (an empty stack is fatal); otherwise leave everything as is. -/
def mdPop (p : Element → Bool) :
    Element × List Element → Option (Option Element × Element × List Element)
  | (child, s) =>
    if p child then
      match s with
      | [] => none
      | c :: rest => some (some child, c, rest)
    else some (none, child, s)

/-- Child predicate for the CoSimulation slots of the root close rule. -/
def isCoSim (c : Element) : Bool :=
  decide (c.type = Elm.elm_CoSimulation_StandAlone) ||
    decide (c.type = Elm.elm_CoSimulation_Tool)

/-- The per-element assembly of `endElement` (`xml_parser.c:513`), indexed by
the already resolved element kind, including the trailing `checkPeek`. -/
def closeElm (el : Elm) (st : PState) : Option PState :=
  match el with
  | Elm.elm_fmiModelDescription =>
    match st.stack with
    | [] => none
    | child0 :: s0 => do
      let (cs, r1) ← mdPop isCoSim (child0, s0)
      let (mv, r2) ← mdPop (fun c => decide (c.type = Elm.elm_ModelVariables)) r1
      let (va, r3) ← mdPop (fun c => decide (c.type = Elm.elm_VendorAnnotations)) r2
      let (de, r4) ← mdPop (fun c => decide (c.type = Elm.elm_DefaultExperiment)) r3
      let (td, r5) ← mdPop (fun c => decide (c.type = Elm.elm_TypeDefinitions)) r4
      let (ud, r6) ← mdPop (fun c => decide (c.type = Elm.elm_UnitDefinitions)) r5
      let (cs2, r7) ← if cs.isNone then mdPop isCoSim r6 else some (none, r6)
      let (child, rest) := r7
      if child.type = Elm.elm_fmiModelDescription then
        let md := child.setRoot (mv.bind Element.list) (va.bind Element.list)
          de (td.bind Element.list) (ud.bind Element.list) (cs <|> cs2)
        finalPeek Elm.elm_fmiModelDescription { st with stack := md :: rest }
      else none
  | Elm.elm_Implementation =>
    match st.stack with
    | cs :: im :: rest =>
      if im.type = Elm.elm_Implementation then
        finalPeek cs.type { st with stack := cs :: rest }
      else none
    | _ => none
  | Elm.elm_CoSimulation_StandAlone =>
    match st.stack with
    | ca :: cs :: rest =>
      if ca.type = Elm.elm_Capabilities ∧
          cs.type = Elm.elm_CoSimulation_StandAlone then
        finalPeek Elm.elm_CoSimulation_StandAlone
          { st with stack := cs.setCapabilities ca :: rest }
      else none
    | _ => none
  | Elm.elm_CoSimulation_Tool =>
    match st.stack with
    | mo :: ca :: cs :: rest =>
      if mo.type = Elm.elm_Model ∧ ca.type = Elm.elm_Capabilities ∧
          cs.type = Elm.elm_CoSimulation_Tool then
        finalPeek Elm.elm_CoSimulation_Tool
          { st with stack := ((cs.setCapabilities ca).setModel mo) :: rest }
      else none
    | _ => none
  | Elm.elm_Type =>
    match st.stack with
    | ts :: tp :: rest =>
      if tp.type = Elm.elm_Type then
        if ts.type = Elm.elm_RealType ∨ ts.type = Elm.elm_IntegerType ∨
            ts.type = Elm.elm_BooleanType ∨ ts.type = Elm.elm_StringType ∨
            ts.type = Elm.elm_EnumerationType then
          finalPeek Elm.elm_Type { st with stack := tp.setTypeSpec ts :: rest }
        else none
      else none
    | _ => none
  | Elm.elm_ScalarVariable =>
    match st.stack with
    | [] => none
    | child0 :: s0 =>
      let st1 : Option (Option (List Element) × Element × List Element) :=
        if child0.type = Elm.elm_DirectDependency then
          match s0 with
          | [] => none
          | c :: rest => some (child0.list, c, rest)
        else some (none, child0, s0)
      match st1 with
      | none => none
      | some (dd, child, s1) =>
        match s1 with
        | [] => none
        | sv :: rest =>
          if sv.type = Elm.elm_ScalarVariable then
            if child.type = Elm.elm_Real ∨ child.type = Elm.elm_Integer ∨
                child.type = Elm.elm_Boolean ∨ child.type = Elm.elm_String ∨
                child.type = Elm.elm_Enumeration then
              finalPeek Elm.elm_ScalarVariable
                { st with stack := sv.setVar dd child :: rest }
            else none
          else none
  | Elm.elm_ModelVariables => closeList Elm.elm_ModelVariables Elm.elm_ScalarVariable st
  | Elm.elm_VendorAnnotations => closeList Elm.elm_VendorAnnotations Elm.elm_Tool st
  | Elm.elm_Tool => closeList Elm.elm_Tool Elm.elm_Annotation st
  | Elm.elm_TypeDefinitions => closeList Elm.elm_TypeDefinitions Elm.elm_Type st
  | Elm.elm_EnumerationType => closeList Elm.elm_EnumerationType Elm.elm_Item st
  | Elm.elm_UnitDefinitions => closeList Elm.elm_UnitDefinitions Elm.elm_BaseUnit st
  | Elm.elm_BaseUnit => closeList Elm.elm_BaseUnit Elm.elm_DisplayUnitDefinition st
  | Elm.elm_DirectDependency => closeList Elm.elm_DirectDependency Elm.elm_Name st
  | Elm.elm_Model => closeList Elm.elm_Model Elm.elm_File st
  | Elm.elm_Name =>
    match st.stack with
    | nm :: rest =>
      if nm.type = Elm.elm_Name then
        finalPeek Elm.elm_Name
          { stack := nm.setNameAttrs st.data :: rest, data := none,
            skipData := true }
      else none
    | [] => none
  | Elm.elm_BAD_DEFINED => none
  | e => if getAstNodeType e = AstNodeType.astElement then finalPeek e st else none

/-- `endElement` (`xml_parser.c:513`): resolve the closing name (unknown is
fatal) and assemble. -/
def endElement (st : PState) (nm : String) : Option PState :=
  closeElm (checkElement nm) st

/-- `handleData` (`xml_parser.c:704`): ignored while `skipData`; a chunk
starting a new data string that is exactly one line feed becomes the empty
string (the documented expat workaround); in every other case the chunk is
appended literally. -/
def handleData (st : PState) (s : String) : PState :=
  if st.skipData then st
  else
    match st.data with
    | none => { st with data := if s = "\n" then some "" else some s }
    | some d => { st with data := some (d ++ s) }

/-- The three event kinds delivered by the expat tokenizer. -/
inductive XEvent where
  | openEv (nm : String) (attrs : List (String × String))
  | closeEv (nm : String)
  | textEv (s : String)

/-- One delivered event. -/
def step (st : PState) : XEvent → Option PState
  | XEvent.openEv nm attrs => startElement st nm attrs
  | XEvent.closeEv nm => endElement st nm
  | XEvent.textEv s => some (handleData st s)

/-- The initial parser state of `parse` (`xml_parser.c:879`): empty stack,
no pending text, `skipData = 0`. -/
def initPState : PState := { stack := [], data := none, skipData := false }

/-- Deliver a whole event stream. -/
def run (events : List XEvent) : Option PState :=
  events.foldlM step initPState

/-- The tail of `parse` (`xml_parser.c:910`): after all events the stack must
hold exactly the root, which is then validated. -/
def parseEvents (events : List XEvent) : Option Element :=
  match run events with
  | some st =>
    match st.stack with
    | [md] => validate md
    | _ => none
  | none => none

/-- The nine list-producing close rules of `endElement` (`xml_parser.c:664`),
as (element, child-kind) pairs. -/
def listCloses : List (Elm × Elm) :=
  [ (Elm.elm_ModelVariables, Elm.elm_ScalarVariable)
  , (Elm.elm_VendorAnnotations, Elm.elm_Tool)
  , (Elm.elm_Tool, Elm.elm_Annotation)
  , (Elm.elm_TypeDefinitions, Elm.elm_Type)
  , (Elm.elm_EnumerationType, Elm.elm_Item)
  , (Elm.elm_UnitDefinitions, Elm.elm_BaseUnit)
  , (Elm.elm_BaseUnit, Elm.elm_DisplayUnitDefinition)
  , (Elm.elm_DirectDependency, Elm.elm_Name)
  , (Elm.elm_Model, Elm.elm_File) ]

/-- A bare `ScalarVariable` node (no attributes, no children). -/
def svPlain : Element := Element.mk Elm.elm_ScalarVariable [] {}

/-- A bare `ModelVariables` node. -/
def mvPlain : Element := Element.mk Elm.elm_ModelVariables [] {}

/-- A bare `CoSimulation_Tool` node. -/
def csPlain : Element := Element.mk Elm.elm_CoSimulation_Tool [] {}

/-- A bare `Implementation` node. -/
def imPlain : Element := Element.mk Elm.elm_Implementation [] {}

/-- A bare `fmiModelDescription` node. -/
def mdBare : Element := Element.mk Elm.elm_fmiModelDescription [] {}

/-- A model description whose only variable carries no type-spec and hence no
declared type. -/
def mdPlainVar : Element :=
  Element.mk Elm.elm_fmiModelDescription [] { modelVariables := some [svPlain] }

/-- Type-spec of type definition `T1`, carrying a description attribute. -/
def tsT1 : Element :=
  Element.mk Elm.elm_RealType [(Att.att_description, some "spec desc")] {}

/-- Type definition `T1`: no description of its own, but one on its
type-spec. -/
def tyT1 : Element :=
  Element.mk Elm.elm_Type [(Att.att_name, some "T1")] { typeSpec := some tsT1 }

/-- A variable type-spec referencing `T1`. -/
def tsV6 : Element :=
  Element.mk Elm.elm_Real [(Att.att_declaredType, some "T1")] {}

/-- A variable without a description, declared of type `T1`. -/
def svV6 : Element :=
  Element.mk Elm.elm_ScalarVariable [(Att.att_name, some "v")]
    { typeSpec := some tsV6 }

/-- Tree with type definition `T1` and one variable referencing it. -/
def mdC6 : Element :=
  Element.mk Elm.elm_fmiModelDescription []
    { typeDefinitions := some [tyT1], modelVariables := some [svV6] }

/-- Type definition `T2` carrying its description on the `Type` node
itself. -/
def tyT2 : Element :=
  Element.mk Elm.elm_Type
    [(Att.att_name, some "T2"), (Att.att_description, some "t2 desc")]
    { typeSpec := some (Element.mk Elm.elm_RealType [] {}) }

/-- A variable type-spec referencing `T2`. -/
def tsV7 : Element :=
  Element.mk Elm.elm_Real [(Att.att_declaredType, some "T2")] {}

/-- A variable without a description, declared of type `T2`. -/
def svV7 : Element :=
  Element.mk Elm.elm_ScalarVariable [] { typeSpec := some tsV7 }

/-- Tree with type definition `T2` and one variable referencing it. -/
def mdC6b : Element :=
  Element.mk Elm.elm_fmiModelDescription []
    { typeDefinitions := some [tyT2], modelVariables := some [svV7] }

/-- A `Real` type-spec with an unparseable nominal attribute. -/
def tsNom : Element :=
  Element.mk Elm.elm_Real [(Att.att_nominal, some "abc")] {}

/-- A variable with value reference 7 and the unparseable nominal. -/
def svNom : Element :=
  Element.mk Elm.elm_ScalarVariable
    [(Att.att_name, some "x"), (Att.att_valueReference, some "7")]
    { typeSpec := some tsNom }

/-- Tree holding `svNom`. -/
def mdNom : Element :=
  Element.mk Elm.elm_fmiModelDescription [] { modelVariables := some [svNom] }

/-- Scenario D event stream: a `CoSimulation_Tool` (with `Capabilities` and a
`Model` holding one `File`) wrapped in the deprecated `Implementation`
element. -/
def dWithImpl : List XEvent :=
  [ XEvent.openEv "fmiModelDescription" []
  , XEvent.openEv "Implementation" []
  , XEvent.openEv "CoSimulation_Tool" []
  , XEvent.openEv "Capabilities" []
  , XEvent.closeEv "Capabilities"
  , XEvent.openEv "Model" []
  , XEvent.openEv "File" [("file", "a.ep")]
  , XEvent.closeEv "File"
  , XEvent.closeEv "Model"
  , XEvent.closeEv "CoSimulation_Tool"
  , XEvent.closeEv "Implementation"
  , XEvent.closeEv "fmiModelDescription" ]

/-- The same document without the `Implementation` wrapper. -/
def dNoImpl : List XEvent :=
  [ XEvent.openEv "fmiModelDescription" []
  , XEvent.openEv "CoSimulation_Tool" []
  , XEvent.openEv "Capabilities" []
  , XEvent.closeEv "Capabilities"
  , XEvent.openEv "Model" []
  , XEvent.openEv "File" [("file", "a.ep")]
  , XEvent.closeEv "File"
  , XEvent.closeEv "Model"
  , XEvent.closeEv "CoSimulation_Tool"
  , XEvent.closeEv "fmiModelDescription" ]

/-! ## Helper lemmas -/

theorem takeWhile_all_append {α : Type} (p : α → Bool) (l : List α)
    (h : ∀ x ∈ l, p x = true) (s : α) (hs : p s = false) (r : List α) :
    (l ++ s :: r).takeWhile p = l := by
  induction l with
  | nil => simp [List.takeWhile_cons, hs]
  | cons a t ih =>
    have ha : p a = true := h a (by simp)
    simp only [List.cons_append, List.takeWhile_cons, ha, if_true]
    rw [ih (fun x hx => h x (by simp [hx]))]

theorem dropWhile_all_append {α : Type} (p : α → Bool) (l : List α)
    (h : ∀ x ∈ l, p x = true) (s : α) (hs : p s = false) (r : List α) :
    (l ++ s :: r).dropWhile p = s :: r := by
  induction l with
  | nil => simp [List.dropWhile_cons, hs]
  | cons a t ih =>
    have ha : p a = true := h a (by simp)
    simp only [List.cons_append, List.dropWhile_cons, ha, if_true]
    exact ih (fun x hx => h x (by simp [hx]))

theorem type_setList (e : Element) (l : List Element) :
    (e.setList l).type = e.type := by
  cases e
  rfl

theorem closeElm_eq_closeList (p c : Elm) (hp : (p, c) ∈ listCloses)
    (st : PState) : closeElm p st = closeList p c st := by
  fin_cases hp <;> rfl

theorem closeList_run (p c : Elm) (hne : p ≠ c)
    (hast : getAstNodeType p = AstNodeType.astListElement)
    (children rest : List Element) (sentinel : Element)
    (d : Option String) (sk : Bool)
    (hc : ∀ x ∈ children, x.type = c) (hs : sentinel.type = p) :
    closeList p c ⟨children.reverse ++ sentinel :: rest, d, sk⟩ =
      some ⟨sentinel.setList children :: rest, d, sk⟩ := by
  have h1 : ∀ x ∈ children.reverse,
      (fun x : Element => decide (x.type = c)) x = true := by
    intro x hx
    rw [List.mem_reverse] at hx
    simp [hc x hx]
  have h2 : (fun x : Element => decide (x.type = c)) sentinel = false := by
    simp only [decide_eq_false_iff_not, hs]
    exact hne
  unfold closeList popList
  rw [dropWhile_all_append _ _ h1 _ h2,
    takeWhile_all_append _ _ h1 _ h2]
  simp [hast, type_setList, hs, finalPeek]

/-! ## C7: `sameBaseType` is the Enumeration/Integer-merged equality -/

/-- C7: `sameBaseType t1 t2` holds exactly when `t1 = t2` or one side is
Enumeration and the other Integer; hence it is reflexive and symmetric, and
every other pair of kinds is distinct under it. -/
theorem sameBaseType_spec :
    (∀ t1 t2 : Elm, sameBaseType t1 t2 = true ↔
      (t1 = t2 ∨ (t1 = Elm.elm_Enumeration ∧ t2 = Elm.elm_Integer) ∨
        (t2 = Elm.elm_Enumeration ∧ t1 = Elm.elm_Integer))) ∧
    (∀ t : Elm, sameBaseType t t = true) ∧
    (∀ t1 t2 : Elm, sameBaseType t1 t2 = sameBaseType t2 t1) := by
  refine ⟨?_, ?_, ?_⟩ <;> decide

/-! ## C8: lookups with the undefined sentinel value reference -/

/-- C8: `getVariable` and `getNonAliasVariable` return `NULL` whenever the
requested value reference is `fmiUndefinedValueReference = 4294967295`,
whatever the variable list holds. -/
theorem getVariable_undefined (md : Element) (ty : Elm) :
    getVariable md fmiUndefinedValueReference ty = none ∧
    getNonAliasVariable md fmiUndefinedValueReference ty = none := by
  unfold getVariable getNonAliasVariable
  cases md.modelVariables <;> simp

/-! ## C9: missing-attribute results of the numeric readers -/

/-- C9: an absent attribute gives `getUInt` the all-ones value `4294967295`
(equal to the undefined value-reference sentinel) with status Missing, while
`getDouble` and `getInt` give `0` with status Missing. -/
theorem typed_reader_missing_defaults (e : Element) (a : Att)
    (h : getString e a = none) :
    getUInt e a = (4294967295, ValueStatus.valueMissing) ∧
    (4294967295 : Nat) = fmiUndefinedValueReference ∧
    getDouble e a = (0, ValueStatus.valueMissing) ∧
    getInt e a = (0, ValueStatus.valueMissing) := by
  refine ⟨?_, rfl, ?_, ?_⟩ <;> simp [getUInt, getDouble, getInt, h]

theorem typed_reader_missing_defaults_witness :
    getUInt svPlain Att.att_nominal = (4294967295, ValueStatus.valueMissing) ∧
    (4294967295 : Nat) = fmiUndefinedValueReference ∧
    getDouble svPlain Att.att_nominal = (0, ValueStatus.valueMissing) ∧
    getInt svPlain Att.att_nominal = (0, ValueStatus.valueMissing) :=
  typed_reader_missing_defaults svPlain Att.att_nominal rfl

/-! ## C10: `getNominal` only ever returns a successfully parsed value -/

/-- C10: `getNominal` returns the documented default `1.0` whenever the
status of the underlying attribute read is not `valueDefined` (absent at
both levels, or present but unparseable), and the parsed value exactly when
the status is `valueDefined`. -/
theorem getNominal_spec (md : Element) (vr : Nat) :
    (∀ d vs,
      getVariableAttributeDouble md vr Elm.elm_Real Att.att_nominal = (d, vs) →
      vs ≠ ValueStatus.valueDefined → getNominal md vr = 1) ∧
    (∀ d,
      getVariableAttributeDouble md vr Elm.elm_Real Att.att_nominal =
        (d, ValueStatus.valueDefined) → getNominal md vr = d) := by
  constructor
  · intro d vs hd hvs
    unfold getNominal
    rw [hd]
    simp [hvs]
  · intro d hd
    unfold getNominal
    rw [hd]
    simp

theorem getNominal_spec_witness : getNominal mdNom 7 = 1 :=
  (getNominal_spec mdNom 7).1 0 ValueStatus.valueIllegal rfl (by decide)

/-! ## C3: `getEnumValue` defaults and resolution -/

/-- C3: with the attribute absent, `getEnumValue` returns the per-attribute
default (variableNamingConvention → flat, variability → continuous,
causality → internal, alias → noAlias, anything else → the Bad identity)
with status Missing; with the attribute present it returns the name-table
resolution with status Defined when resolvable, and the Bad identity with
status Illegal otherwise.  In particular for causality: absent → internal /
Missing, "output" → output / Defined, "bogus" → Bad / Illegal. -/
theorem getEnumValue_spec (e : Element) :
    (∀ a : Att, getString e a = none →
      getEnumValue e a = (enumDefault a, ValueStatus.valueMissing)) ∧
    (enumDefault Att.att_variableNamingConvention = Enu.enu_flat ∧
     enumDefault Att.att_variability = Enu.enu_continuous ∧
     enumDefault Att.att_causality = Enu.enu_internal ∧
     enumDefault Att.att_alias = Enu.enu_noAlias ∧
     (∀ a : Att, a ≠ Att.att_variableNamingConvention →
       a ≠ Att.att_variability → a ≠ Att.att_causality → a ≠ Att.att_alias →
       enumDefault a = Enu.enu_BAD_DEFINED)) ∧
    (∀ a v, getString e a = some v → checkEnumValue v ≠ Enu.enu_BAD_DEFINED →
      getEnumValue e a = (checkEnumValue v, ValueStatus.valueDefined)) ∧
    (∀ a v, getString e a = some v → checkEnumValue v = Enu.enu_BAD_DEFINED →
      getEnumValue e a = (Enu.enu_BAD_DEFINED, ValueStatus.valueIllegal)) ∧
    (getString e Att.att_causality = none →
      getCausality e = Enu.enu_internal ∧
      getEnumValue e Att.att_causality =
        (Enu.enu_internal, ValueStatus.valueMissing)) ∧
    (getString e Att.att_causality = some "output" →
      getCausality e = Enu.enu_output ∧
      getEnumValue e Att.att_causality =
        (Enu.enu_output, ValueStatus.valueDefined)) ∧
    (getString e Att.att_causality = some "bogus" →
      getCausality e = Enu.enu_BAD_DEFINED ∧
      getEnumValue e Att.att_causality =
        (Enu.enu_BAD_DEFINED, ValueStatus.valueIllegal)) := by
  have hout : checkEnumValue "output" = Enu.enu_output := rfl
  have hbog : checkEnumValue "bogus" = Enu.enu_BAD_DEFINED := rfl
  refine ⟨?_, ⟨rfl, rfl, rfl, rfl, by decide⟩, ?_, ?_, ?_, ?_, ?_⟩
  · intro a h
    simp [getEnumValue, h]
  · intro a v h hne
    simp [getEnumValue, h, hne]
  · intro a v h hbad
    simp [getEnumValue, h, hbad]
  · intro h
    constructor <;> simp [getCausality, getEnumValue, h, enumDefault]
  · intro h
    constructor <;> simp [getCausality, getEnumValue, h, hout]
  · intro h
    constructor <;> simp [getCausality, getEnumValue, h, hbog]

theorem getEnumValue_spec_witness :
    getEnumValue svPlain Att.att_causality =
      (enumDefault Att.att_causality, ValueStatus.valueMissing) :=
  (getEnumValue_spec svPlain).1 Att.att_causality rfl

/-! ## C5 (corrected): the lone line-feed normalization in `handleData` -/

/-- C5 counterexample: with text accumulation enabled and a pending buffer
`"x"`, the chunk consisting of exactly one line feed is appended literally —
it is not treated as empty text as the claim states for every chunk. -/
theorem handleData_lf_cex :
    (handleData { stack := [], data := some "x", skipData := false }
        "\n").data = some "x\n" ∧
    some ("x\n" : String) ≠ some ("x" : String) := by
  exact ⟨rfl, by decide⟩

/-- C5 amended: while accumulation is enabled, a chunk of exactly one line
feed is treated as empty text only when it starts a new pending buffer; once
a buffer is pending every chunk — a lone line feed included — is appended
literally, and a non-line-feed chunk starting a new buffer is stored
literally. -/
theorem handleData_amended (st : PState) (s : String)
    (hsk : st.skipData = false) :
    (st.data = none → s = "\n" → (handleData st s).data = some "") ∧
    (st.data = none → s ≠ "\n" → (handleData st s).data = some s) ∧
    (∀ d, st.data = some d → (handleData st s).data = some (d ++ s)) := by
  refine ⟨?_, ?_, ?_⟩
  · intro h hs
    simp [handleData, hsk, h, hs]
  · intro h hs
    simp [handleData, hsk, h, hs]
  · intro d h
    simp [handleData, hsk, h]

theorem handleData_amended_witness :
    (handleData { stack := [], data := none, skipData := false }
        "\n").data = some "" :=
  (handleData_amended { stack := [], data := none, skipData := false }
    "\n" rfl).1 rfl rfl

/-! ## C2: the validator -/

/-- C2: `validate` fails (returns no tree) exactly when some variable's
type-spec carries a `declaredType` attribute that does not resolve in the
root's type definitions; the error count is exactly the number of such
variables (one each); a variable whose type-spec has no `declaredType`
attribute is never counted. -/
theorem validate_spec (md : Element) :
    (validate md = none ↔ ∃ sv ∈ md.modelVariables.getD [], ∃ ts,
      sv.typeSpec = some ts ∧
      (getString ts Att.att_declaredType).isSome = true ∧
      getDeclaredType md (getString ts Att.att_declaredType) = none) ∧
    errorCount md =
      ((md.modelVariables.getD []).filter (unresolvedB md)).length ∧
    (∀ sv ∈ md.modelVariables.getD [],
      sv.typeSpec.bind (fun ts => getString ts Att.att_declaredType) = none →
      unresolvedB md sv = false) := by
  have hiff : ∀ sv : Element, unresolvedB md sv = true ↔ ∃ ts,
      sv.typeSpec = some ts ∧
      (getString ts Att.att_declaredType).isSome = true ∧
      getDeclaredType md (getString ts Att.att_declaredType) = none := by
    intro sv
    unfold unresolvedB
    cases hts : sv.typeSpec with
    | none => simp [hts]
    | some ts => simp [hts, Option.isNone_iff_eq_none]
  refine ⟨?_, List.countP_eq_length_filter _ _, ?_⟩
  · unfold validate
    by_cases h : errorCount md = 0
    · rw [if_neg (by simp [h])]
      constructor
      · intro hx
        exact absurd hx (by simp)
      · rintro ⟨sv, hmem, hex⟩
        have hp : unresolvedB md sv = true := (hiff sv).2 hex
        have hpos : 0 < errorCount md :=
          List.countP_pos_iff.mpr ⟨sv, hmem, hp⟩
        exact absurd h (Nat.pos_iff_ne_zero.mp hpos)
    · rw [if_pos h]
      constructor
      · intro _
        obtain ⟨sv, hmem, hp⟩ := List.countP_pos_iff.mp (Nat.pos_of_ne_zero h)
        exact ⟨sv, hmem, (hiff sv).1 hp⟩
      · intro _
        rfl
  · intro sv _ hnone
    unfold unresolvedB
    rw [hnone]
    rfl

theorem validate_spec_witness :
    unresolvedB mdPlainVar svPlain = false :=
  (validate_spec mdPlainVar).2.2 svPlain (List.mem_singleton.mpr rfl) rfl

/-! ## C6 (corrected): attribute lookups with declared-type fallback -/

/-- C6 counterexample: `svV6` has no description of its own, its declared
type resolves to `tyT1`, and the attribute is present on `tyT1`'s type-spec
`tsT1` — yet `getDescription` returns nothing, because the description
fallback reads the `Type` node itself, not the referenced type's type-spec
as the claim states for every fallback lookup. -/
theorem fallback_description_cex :
    getString svV6 Att.att_description = none ∧
    getDeclaredType mdC6
      (svV6.typeSpec.bind (fun ts => getString ts Att.att_declaredType)) =
        some tyT1 ∧
    tyT1.typeSpec = some tsT1 ∧
    getString tsT1 Att.att_description = some "spec desc" ∧
    getDescription mdC6 svV6 = none :=
  ⟨rfl, rfl, rfl, rfl, rfl⟩

/-- C6 amended: each fallback lookup first reads the attribute at its first
level (`getString2`: the given node; the description lookup: the variable
node; `getVariableAttributeString`: the resolved variable's type-spec); when
absent, `getString2` and `getVariableAttributeString` resolve the
`declaredType` reference and read the referenced type's type-spec, while the
description lookup reads the description attribute of the referenced `Type`
node itself; absence at every level yields not-found. -/
theorem fallback_lookup_amended (md tp sv : Element) (a : Att) (vr : Nat)
    (ty : Elm) :
    (∀ v, getString tp a = some v → getString2 md tp a = some v) ∧
    (getString tp a = none → getString2 md tp a =
      (getDeclaredType md (getString tp Att.att_declaredType)).bind
        (fun t => t.typeSpec.bind (fun ts => getString ts a))) ∧
    (∀ v, getString sv Att.att_description = some v →
      getDescription md sv = some v) ∧
    (getString sv Att.att_description = none → getDescription md sv =
      (getDeclaredType md
        (sv.typeSpec.bind (fun ts => getString ts Att.att_declaredType))).bind
          (fun t => getString t Att.att_description)) ∧
    (getVariable md vr ty = none →
      getVariableAttributeString md vr ty a = none) ∧
    (∀ sv' ts, getVariable md vr ty = some sv' → sv'.typeSpec = some ts →
      getVariableAttributeString md vr ty a =
        match getString ts a with
        | some v => some v
        | none =>
          (getDeclaredType md (getString ts Att.att_declaredType)).bind
            (fun t => t.typeSpec.bind (fun ts2 => getString ts2 a))) := by
  refine ⟨?_, ?_, ?_, ?_, ?_, ?_⟩
  · intro v h
    simp [getString2, h]
  · intro h
    unfold getString2
    rw [h]
    cases hdt : getDeclaredType md (getString tp Att.att_declaredType) with
    | none => simp
    | some t =>
      cases hts : t.typeSpec with
      | none => simp [hts]
      | some ts => simp [hts]
  · intro v h
    simp [getDescription, h]
  · intro h
    unfold getDescription
    rw [h]
    cases hdt : getDeclaredType md
        (sv.typeSpec.bind (fun ts => getString ts Att.att_declaredType)) with
    | none => simp
    | some t => simp
  · intro h
    simp [getVariableAttributeString, h]
  · intro sv' ts h1 h2
    unfold getVariableAttributeString
    rw [h1]
    dsimp only
    rw [h2]
    dsimp only
    cases hv : getString ts a with
    | some v => simp
    | none =>
      cases hdt : getDeclaredType md (getString ts Att.att_declaredType) with
      | none => simp
      | some t =>
        cases hts2 : t.typeSpec with
        | none => simp [hts2]
        | some ts2 => simp [hts2]

theorem fallback_lookup_amended_witness :
    getDescription mdC6b svV7 =
      (getDeclaredType mdC6b
        (svV7.typeSpec.bind (fun ts => getString ts Att.att_declaredType))).bind
          (fun t => getString t Att.att_description) :=
  (fallback_lookup_amended mdC6b svV7 svV7 Att.att_description 0
    Elm.elm_Real).2.2.2.1 rfl

/-! ## C1: the list-producing close rules -/

/-- C1: on the close event of any of the nine list-producing elements, the
machine pops the maximal run of consecutive top-of-stack nodes of that
element's child kind, pushes the first differently kinded node back, and
attaches the popped run — in original document order (`children` is listed
in push order, so the stack top run is its reverse) — as that node's owned
child list. -/

theorem popList_close_spec (parent child : Elm) (nm : String)
    (hnm : checkElement nm = parent)
    (hp : (parent, child) ∈ listCloses)
    (children rest : List Element) (sentinel : Element)
    (d : Option String) (sk : Bool)
    (hc : ∀ x ∈ children, x.type = child)
    (hs : sentinel.type = parent) :
    endElement ⟨children.reverse ++ sentinel :: rest, d, sk⟩ nm =
      some ⟨sentinel.setList children :: rest, d, sk⟩ := by
  have hside : ∀ q ∈ listCloses,
      q.1 ≠ q.2 ∧ getAstNodeType q.1 = AstNodeType.astListElement := by
    intro q hq
    fin_cases hq <;> exact ⟨by decide, by decide⟩
  obtain ⟨hne, hast⟩ := hside (parent, child) hp
  unfold endElement
  rw [hnm, closeElm_eq_closeList parent child hp]
  exact closeList_run parent child hne hast children rest sentinel d sk hc hs

theorem popList_close_spec_witness :
    endElement
        { stack := [svPlain, mvPlain], data := none, skipData := true }
        "ModelVariables" =
      some { stack := [mvPlain.setList [svPlain]], data := none,
             skipData := true } :=
  popList_close_spec Elm.elm_ModelVariables Elm.elm_ScalarVariable
    "ModelVariables" rfl (by decide) [svPlain] [] mvPlain none true
    (fun x hx => by rw [List.mem_singleton] at hx; rw [hx]; rfl) rfl

/-! ## C4: transparency of the `Implementation` wrapper -/

/-- C4: closing `Implementation` pops the node assembled beneath the wrapper,
pops and discards the wrapper itself, and pushes the inner node back
unchanged; consequently a document whose `CoSimulation_Tool` is wrapped in
`Implementation` (`dWithImpl`) parses to exactly the same tree as the same
document without the wrapper (`dNoImpl`), and both parses succeed. -/
theorem implementation_transparent (st : PState) (cs im : Element)
    (rest : List Element) (him : im.type = Elm.elm_Implementation)
    (hstack : st.stack = cs :: im :: rest) :
    endElement st "Implementation" = some { st with stack := cs :: rest } ∧
    parseEvents dWithImpl = parseEvents dNoImpl ∧
    (parseEvents dWithImpl).isSome = true := by
  refine ⟨?_, rfl, rfl⟩
  obtain ⟨stk, d, sk⟩ := st
  simp only at hstack
  subst hstack
  unfold endElement
  have h : checkElement "Implementation" = Elm.elm_Implementation := rfl
  rw [h]
  simp [closeElm, him, finalPeek]

theorem implementation_transparent_witness :
    endElement
        { stack := [csPlain, imPlain, mdBare], data := none, skipData := true }
        "Implementation" =
      some { stack := [csPlain, mdBare], data := none, skipData := true } :=
  (implementation_transparent
    { stack := [csPlain, imPlain, mdBare], data := none, skipData := true }
    csPlain imPlain [mdBare] rfl rfl).1

end FmuXml
